import Mathlib

namespace WalletService

/-! ### Definitions -/

/-- models.TransactionType: deposit | transfer | credit. -/
inductive TransactionType where
  | deposit
  | transfer
  | credit
deriving DecidableEq, Repr

/-- models.TransactionStatus: pending | success | failed. -/
inductive TransactionStatus where
  | pending
  | success
  | failed
deriving DecidableEq, Repr

/-- models.Wallet (id, user_id, wallet_number, balance). -/
structure Wallet where
  id : String
  userId : String
  walletNumber : String
  balance : Int
deriving DecidableEq, Repr

/-- models.Transaction (id, user_id, type, amount, status, reference,
recipient_wallet_id, sender_wallet_id). -/
structure Transaction where
  id : String
  userId : String
  txType : TransactionType
  amount : Int
  status : TransactionStatus
  reference : String
  recipientWalletId : Option String := none
  senderWalletId : Option String := none
deriving DecidableEq, Repr

/-- The ledger store: the wallets and transactions tables, rows in insertion
order. -/
structure Store where
  wallets : List Wallet
  transactions : List Transaction
deriving DecidableEq, Repr

/-- The smallest Go `int64` value, −2^63. -/
def int64Min : Int := -9223372036854775808

/-- The largest Go `int64` value, 2^63 − 1. -/
def int64Max : Int := 9223372036854775807

/-- Go's wrapping `int64` arithmetic: reduce an unbounded integer into
`[-2^63, 2^63)`, as `Balance int64` overflows in the program. -/
def wrap64 (x : Int) : Int :=
  (x + 9223372036854775808) % 18446744073709551616 - 9223372036854775808

/-- `DB.Where("user_id = ?", userID).First(&wallet)`. -/
def findWalletByUserId (db : Store) (userID : String) : Option Wallet :=
  db.wallets.find? (fun w => w.userId == userID)

/-- `DB.Where("wallet_number = ?", number).First(&wallet)`. -/
def findWalletByNumber (db : Store) (number : String) : Option Wallet :=
  db.wallets.find? (fun w => w.walletNumber == number)

/-- `DB.Where("reference = ?", reference).First(&transaction)`. -/
def findTransactionByReference (db : Store) (reference : String) :
    Option Transaction :=
  db.transactions.find? (fun t => t.reference == reference)

/-- `tx.Save(&wallet)`: update the wallet row with the matching primary key. -/
def saveWallet (db : Store) (w : Wallet) : Store :=
  { db with wallets := db.wallets.map (fun x => if x.id == w.id then w else x) }

/-- `tx.Save(&transaction)`: update the transaction row with the matching
primary key. -/
def saveTransaction (db : Store) (t : Transaction) : Store :=
  { db with
    transactions := db.transactions.map (fun x => if x.id == t.id then t else x) }

/-- `tx.Create(&transaction)`: insert a new transaction row. -/
def createTransaction (db : Store) (t : Transaction) : Store :=
  { db with transactions := db.transactions ++ [t] }

/-- handlers.processSuccessfulDeposit (wallet.go): inside one database
transaction, locate the transaction by reference; if already `success` return
nil without touching the balance; otherwise mark it `success` and credit the
owning wallet by `amount`.  An error makes the whole unit roll back. -/
def processSuccessfulDeposit (db : Store) (reference : String) (amount : Int) :
    Except String Store :=
  match findTransactionByReference db reference with
  | none => .error "record not found"
  | some transaction =>
    if transaction.status = TransactionStatus.success then
      .ok db
    else
      let transaction' := { transaction with status := TransactionStatus.success }
      let db1 := saveTransaction db transaction'
      match findWalletByUserId db1 transaction.userId with
      | none => .error "record not found"
      | some wallet =>
        .ok (saveWallet db1
          { wallet with balance := wrap64 (wallet.balance + amount) })

/-- The observable effect on the store of one `charge.success` webhook
delivery (handlers.PaystackWebhook after a verified signature): errors roll
the database transaction back, so the store is unchanged and a 500 is
returned; success commits and returns 200. -/
def applyWebhookDeposit (db : Store) (reference : String) (amount : Int) :
    Store × Nat :=
  match processSuccessfulDeposit db reference amount with
  | .ok db' => (db', 200)
  | .error _ => (db, 500)

/-- handlers.TransferRequest (wallet.go). -/
structure TransferRequest where
  walletNumber : String
  amount : Int
deriving DecidableEq, Repr

/-- The closure passed to `database.DB.Transaction` in handlers.TransferFunds:
load sender by owner, reject insufficient balance, load recipient by wallet
number, reject self-transfer, then debit, credit and insert the two
transaction legs.  Fresh uuids/references come in as parameters. -/
def transferTx (db : Store) (userID : String) (req : TransferRequest)
    (senderTxId recipientTxId ref1 ref2 : String) : Except String Store :=
  match findWalletByUserId db userID with
  | none => .error "record not found"
  | some senderWallet =>
    if senderWallet.balance < req.amount then
      .error "insufficient balance"
    else
      match findWalletByNumber db req.walletNumber with
      | none => .error "recipient wallet not found"
      | some recipientWallet =>
        if senderWallet.id = recipientWallet.id then
          .error "cannot transfer to your own wallet"
        else
          let db1 := saveWallet db
            { senderWallet with
              balance := wrap64 (senderWallet.balance - req.amount) }
          let db2 := saveWallet db1
            { recipientWallet with
              balance := wrap64 (recipientWallet.balance + req.amount) }
          let db3 := createTransaction db2
            { id := senderTxId, userId := userID, txType := .transfer,
              amount := req.amount, status := .success, reference := ref1,
              recipientWalletId := some recipientWallet.id }
          let db4 := createTransaction db3
            { id := recipientTxId, userId := recipientWallet.userId,
              txType := .credit, amount := req.amount, status := .success,
              reference := ref2, senderWalletId := some senderWallet.id }
          .ok db4

/-- The error mapping at the end of handlers.TransferFunds: the three known
error strings map to 400/404/400 with their messages, anything else (such as
gorm's record-not-found) to 500 "Transfer failed". -/
def transferErrorResponse (e : String) : Nat × String :=
  if e = "insufficient balance" then (400, "Insufficient balance")
  else if e = "recipient wallet not found" then
    (404, "Recipient wallet not found")
  else if e = "cannot transfer to your own wallet" then
    (400, "Cannot transfer to your own wallet")
  else (500, "Transfer failed")

/-- handlers.TransferFunds (wallet.go): bind the request (`wallet_number`
required, `amount` required and > 0), run the transfer transaction, and map
the closure's error string to an HTTP status and body message.  Any error
rolls the store back. -/
def TransferFunds (db : Store) (userID : String) (req : TransferRequest)
    (senderTxId recipientTxId ref1 ref2 : String) : Store × Nat × String :=
  if req.walletNumber = "" ∨ req.amount ≤ 0 then
    (db, 400, "Invalid request")
  else
    match transferTx db userID req senderTxId recipientTxId ref1 ref2 with
    | .error e =>
      (db, (transferErrorResponse e).1, (transferErrorResponse e).2)
    | .ok db' => (db', 200, "Transfer completed")

/-- handlers.InitiateDeposit (wallet.go): bind the amount (> 0), load the
caller's wallet, create a `pending` transaction record, then call the
Paystack collaborator; the collaborator outcome is the `paystackOk`
parameter.  Note the record is created before the collaborator call and is
not removed when that call fails. -/
def InitiateDeposit (db : Store) (userID : String) (amount : Int)
    (reference txId : String) (paystackOk : Bool) : Store × Nat :=
  if amount ≤ 0 then (db, 400)
  else
    match findWalletByUserId db userID with
    | none => (db, 404)
    | some _ =>
      let db1 := createTransaction db
        { id := txId, userId := userID, txType := .deposit, amount := amount,
          status := .pending, reference := reference }
      if paystackOk then (db1, 200) else (db1, 500)

/-- handlers.GetDepositStatus (wallet.go): look the transaction up by
reference only.  The authenticated caller's identity is available in the
request context but never consulted, which the unused parameter records. -/
def GetDepositStatus (db : Store) (_callerUserID : String) (reference : String) :
    Nat × Option (String × TransactionStatus × Int) :=
  match findTransactionByReference db reference with
  | none => (404, none)
  | some transaction =>
    (200, some (transaction.reference, transaction.status, transaction.amount))

/-- Modelled from the spec: `models.IdempotencyKey` is referenced by
middleware/idempotency.go but its struct definition is not among the source
files (and it is absent from `database.Migrate`).  Per spec §3, an
idempotency record stores the composite key hash, the caller, the request
path and body, the response status code and body, and an expiry 24 hours
after creation. -/
structure IdempotencyKey where
  key : String
  userId : String
  requestPath : String
  requestBody : String
  responseCode : Nat
  responseBody : String
  expiresAt : Nat
deriving DecidableEq, Repr

/-- Modelled from the spec: `IdempotencyKey.IsExpired`, as used by the
middleware; a record is expired once the current time is past its expiry
(`time.Now().After(ExpiresAt)`, as in the analogous `APIKey.IsExpired`). -/
def IdempotencyKey.IsExpired (k : IdempotencyKey) (now : Nat) : Bool :=
  k.expiresAt < now

/-- `DB.Where("key = ? AND user_id = ?", keyHash, userID).First(&existingKey)`
in IdempotencyMiddleware. -/
def lookupIdempotencyKey (keys : List IdempotencyKey)
    (keyHash userID : String) : Option IdempotencyKey :=
  keys.find? (fun k => k.key == keyHash && k.userId == userID)

/-- Seconds in the 24-hour idempotency-record lifetime
(`time.Now().Add(24 * time.Hour)`). -/
def idempotencyTTL : Nat := 24 * 60 * 60

/-- The continue path of middleware.IdempotencyMiddleware: run the wrapped
handler; when it answers with a 2xx status, store the idempotency record and
sweep expired records (the sweep is a fire-and-forget goroutine in the code,
modelled here as running before the response is returned). -/
def runHandlerAndStoreKey (handler : Store → Store × Nat × String)
    (db : Store) (keys : List IdempotencyKey) (now : Nat)
    (keyHash userID path requestBody : String) :
    Store × List IdempotencyKey × Nat × String :=
  let r := handler db
  let db' := r.1
  let code := r.2.1
  let body := r.2.2
  if 200 ≤ code ∧ code < 300 then
    let newKey : IdempotencyKey :=
      { key := keyHash, userId := userID, requestPath := path,
        requestBody := requestBody, responseCode := code,
        responseBody := body, expiresAt := now + idempotencyTTL }
    let keys' := (keys ++ [newKey]).filter (fun k => !(k.expiresAt < now))
    (db', keys', code, body)
  else
    (db', keys, code, body)

/-- middleware.IdempotencyMiddleware: with no token the request continues
uncached; with a token, hash (caller, path, token), look the record up by
hash and caller, replay an unexpired hit without re-running the handler,
delete an expired hit and continue, and on a miss continue and capture a
2xx response.  The SHA-256 composite hash is the `keyHashFn` parameter. -/
def IdempotencyMiddleware (keyHashFn : String → String → String → String)
    (handler : Store → Store × Nat × String)
    (db : Store) (keys : List IdempotencyKey) (now : Nat)
    (userID path idempotencyKey requestBody : String) :
    Store × List IdempotencyKey × Nat × String :=
  if idempotencyKey = "" then
    let r := handler db
    (r.1, keys, r.2.1, r.2.2)
  else
    let keyHash := keyHashFn userID path idempotencyKey
    match lookupIdempotencyKey keys keyHash userID with
    | some existingKey =>
      if existingKey.IsExpired now then
        runHandlerAndStoreKey handler db
          (keys.filter (fun k => k ≠ existingKey)) now
          keyHash userID path requestBody
      else
        (db, keys, existingKey.responseCode, existingKey.responseBody)
    | none =>
      runHandlerAndStoreKey handler db keys now keyHash userID path requestBody

/-- The deployed `POST /wallet/transfer` route from main.go: the chain is
AuthMiddleware, RequirePermission("transfer"), TransferFunds.  No route in
main.go installs IdempotencyMiddleware, so the client's idempotency token is
never consulted and the handler runs on every delivery. -/
def deployedTransferRoute (db : Store) (userID : String) (req : TransferRequest)
    (senderTxId recipientTxId ref1 ref2 : String)
    (_idempotencyToken : String) : Store × Nat × String :=
  TransferFunds db userID req senderTxId recipientTxId ref1 ref2

/-- The per-key window state of middleware.RateLimitByAPIKey. -/
structure RateLimitData where
  count : Nat
  resetTime : Nat
deriving DecidableEq, Repr

/-- One check of middleware.RateLimitByAPIKey for a credential whose cache
entry is `entry`: a missing or elapsed window starts afresh with count 1 and
allows; within the window, a count at the cap of 100 rejects, otherwise the
count is incremented and the request allowed.  Returns the new entry and
whether the request was allowed. -/
def rateLimitCheck (entry : Option RateLimitData) (now : Nat) :
    Option RateLimitData × Bool :=
  match entry with
  | some data =>
    if data.resetTime < now then
      (some { count := 1, resetTime := now + 60 }, true)
    else if 100 ≤ data.count then
      (some data, false)
    else
      (some { count := data.count + 1, resetTime := data.resetTime }, true)
  | none => (some { count := 1, resetTime := now + 60 }, true)

/-- A sequence of rate-guard checks at the given times, returning the final
cache entry and how many checks were allowed. -/
def runRateChecks (entry : Option RateLimitData) :
    List Nat → Option RateLimitData × Nat
  | [] => (entry, 0)
  | t :: ts =>
    let r := rateLimitCheck entry t
    let rest := runRateChecks r.1 ts
    (rest.1, (if r.2 then 1 else 0) + rest.2)

/-- Store for the C10 witness: a transaction owned by user `alice`, queried
by a different caller `mallory`. -/
def c10Db : Store :=
  { wallets := [{ id := "w1", userId := "alice",
                  walletNumber := "1000000000001", balance := 700 }],
    transactions := [{ id := "t1", userId := "alice",
                       txType := TransactionType.deposit, amount := 5000,
                       status := TransactionStatus.success,
                       reference := "TXN_1" }] }

/-- Store for the C6 counterexample. -/
def c6Db : Store :=
  { wallets := [{ id := "w1", userId := "u1",
                  walletNumber := "1000000000001", balance := 0 }],
    transactions := [] }

/-- Store for the C7 counterexample: the recipient wallet exists, the caller
`u1` has none. -/
def c7Db : Store :=
  { wallets := [{ id := "w2", userId := "u2",
                  walletNumber := "1000000000002", balance := 100 }],
    transactions := [] }

/-- Store for C5: one wallet with balance 10, which is both sender and
recipient of the self-transfers below. -/
def c5Db : Store :=
  { wallets := [{ id := "w1", userId := "u1",
                  walletNumber := "1000000000001", balance := 10 }],
    transactions := [] }

/-- Store for the C3 counterexample: a wallet with balance 0 and a pending
deposit record. -/
def c3Db : Store :=
  { wallets := [{ id := "w1", userId := "u1",
                  walletNumber := "1000000000001", balance := 0 }],
    transactions := [{ id := "t1", userId := "u1",
                       txType := TransactionType.deposit, amount := 5,
                       status := TransactionStatus.pending,
                       reference := "TXN_1" }] }

/-- Store for the C3 amended witness: sender balance 10, distinct recipient. -/
def c3WDb : Store :=
  { wallets := [{ id := "w1", userId := "u1",
                  walletNumber := "1000000000001", balance := 10 },
                { id := "w2", userId := "u2",
                  walletNumber := "1000000000002", balance := 0 }],
    transactions := [] }

/-- Store for the C1 witness: wallet balance 100, pending deposit. -/
def c1Db : Store :=
  { wallets := [{ id := "w1", userId := "u1",
                  walletNumber := "1000000000001", balance := 100 }],
    transactions := [{ id := "t1", userId := "u1",
                       txType := TransactionType.deposit, amount := 50,
                       status := TransactionStatus.pending,
                       reference := "TXN_1" }] }

/-- The idempotency record stored by the continue path when the wrapped
handler answers 2xx. -/
def storedIdempotencyKey (keyHash userID path requestBody : String)
    (code : Nat) (responseBody : String) (now : Nat) : IdempotencyKey :=
  { key := keyHash, userId := userID, requestPath := path,
    requestBody := requestBody, responseCode := code,
    responseBody := responseBody, expiresAt := now + idempotencyTTL }

/-- Store for the C4 counterexample and witness: sender `ua` with balance
100, recipient `ub` with balance 0. -/
def c4Db : Store :=
  { wallets := [{ id := "wa", userId := "ua",
                  walletNumber := "1111111111111", balance := 100 },
                { id := "wb", userId := "ub",
                  walletNumber := "2222222222222", balance := 0 }],
    transactions := [] }

/-- Hash function for the C4 amended witness: a stand-in for the SHA-256
composite hash. -/
def c4HashFn (u p t : String) : String :=
  String.intercalate ":" [u, p, t]

/-- Handler for the C4 amended witness: the transfer handler wrapped the way
the middleware would wrap it. -/
def c4Handler (db : Store) : Store × Nat × String :=
  TransferFunds db "ua" { walletNumber := "2222222222222", amount := 30 }
    "s1" "c1" "TR1" "TR2"

/-- Fixtures for the C9 witness: caller `ua` stores a record through the
middleware; `ub` then presents the very hash under which it was stored. -/
def c9HashFn (u p t : String) : String :=
  String.intercalate "|" [u, p, t]

/-- Identity-effect handler for the C9 witness. -/
def c9Handler (db : Store) : Store × Nat × String :=
  (db, 200, "ok")

/-- The idempotency records left by `ua`'s request in the C9 witness. -/
def c9Keys1 : List IdempotencyKey :=
  (IdempotencyMiddleware c9HashFn c9Handler { wallets := [], transactions := [] }
    [] 0 "ua" "/wallet/transfer" "tok" "body1").2.1

/-- The record `ua`'s request creates in the C9 witness. -/
def c9NewKey : IdempotencyKey :=
  { key := c9HashFn "ua" "/wallet/transfer" "tok", userId := "ua",
    requestPath := "/wallet/transfer", requestBody := "body1",
    responseCode := 200, responseBody := "ok", expiresAt := 86400 }

/-- The balance of the wallet row with the given primary key (0 if absent). -/
def balanceOf (db : Store) (walletId : String) : Int :=
  match db.wallets.find? (fun w => w.id == walletId) with
  | some w => w.balance
  | none => 0

/-- One transfer request as submitted to the transfer route, with the fresh
identifiers its execution would generate. -/
structure TransferStep where
  userID : String
  req : TransferRequest
  senderTxId : String
  recipientTxId : String
  ref1 : String
  ref2 : String
deriving Repr

/-- The store after one transfer request (success or failure). -/
def applyTransfer (db : Store) (s : TransferStep) : Store :=
  (TransferFunds db s.userID s.req s.senderTxId s.recipientTxId
    s.ref1 s.ref2).1

/-- A sequence of transfer requests applied in order. -/
def applyTransfers (db : Store) : List TransferStep → Store
  | [] => db
  | s :: rest => applyTransfers (applyTransfer db s) rest

/-- The identifying columns (id, owner, wallet number) of the wallets
table. -/
def walletKeys (db : Store) : List (String × String × String) :=
  db.wallets.map (fun w => (w.id, w.userId, w.walletNumber))

/-- Store for the C2 witness: A with balance 5000, B with balance 0, per the
spec's worked scenario. -/
def c2Db : Store :=
  { wallets := [{ id := "wa", userId := "ua",
                  walletNumber := "1111111111111", balance := 5000 },
                { id := "wb", userId := "ub",
                  walletNumber := "2222222222222", balance := 0 }],
    transactions := [] }

/-- The transfer steps of the C2 witness: A→B 3000, then B→A 1000, then an
A→B attempt exceeding A's balance (rejected). -/
def c2Steps : List TransferStep :=
  [{ userID := "ua", req := { walletNumber := "2222222222222", amount := 3000 },
     senderTxId := "s1", recipientTxId := "c1", ref1 := "TR1", ref2 := "TR2" },
   { userID := "ub", req := { walletNumber := "1111111111111", amount := 1000 },
     senderTxId := "s2", recipientTxId := "c2", ref1 := "TR3", ref2 := "TR4" },
   { userID := "ua", req := { walletNumber := "2222222222222", amount := 9999 },
     senderTxId := "s3", recipientTxId := "c3", ref1 := "TR5", ref2 := "TR6" }]

/-- Store for the C2 counterexample: sender with balance 10, recipient at
the largest int64 balance. -/
def c2OfDb : Store :=
  { wallets := [{ id := "wa", userId := "ua",
                  walletNumber := "1111111111111", balance := 10 },
                { id := "wb", userId := "ub",
                  walletNumber := "2222222222222",
                  balance := 9223372036854775807 }],
    transactions := [] }

/-- The first transfer step of the C2 witness: A→B 3000. -/
def c2Step0 : TransferStep :=
  { userID := "ua", req := { walletNumber := "2222222222222", amount := 3000 },
    senderTxId := "s1", recipientTxId := "c1", ref1 := "TR1", ref2 := "TR2" }

/-! ### Theorems -/

/-- `find?` commutes with a `map` whose function does not change the
predicate's verdict on any element. -/
theorem find?_map_pred {α : Type} (f : α → α) (p : α → Bool) (l : List α)
    (h : ∀ x, p (f x) = p x) : (l.map f).find? p = (l.find? p).map f := by
  induction l with
  | nil => rfl
  | cons a tl ih =>
    by_cases hpa : p a = true
    · rw [List.map_cons, List.find?_cons_of_pos _ (by rw [h a]; exact hpa),
        List.find?_cons_of_pos _ hpa, Option.map_some']
    · have hfa : ¬ p (f a) = true := by rw [h a]; exact hpa
      rw [List.map_cons, List.find?_cons_of_neg _ hfa,
        List.find?_cons_of_neg _ hpa, ih]

/-- A row update (`Save` by primary key) replaces the first `p`-match of the
table by the updated row `c` whenever the first match itself carries the
matching key and `c` still satisfies `p`. -/
theorem find?_map_if_update {α : Type} (q p : α → Bool) (c : α)
    (l : List α) (a : α) (hfind : l.find? p = some a) (hqa : q a = true)
    (hc : p c = true) :
    (l.map (fun x => if q x then c else x)).find? p = some c := by
  induction l with
  | nil => simp at hfind
  | cons b tl ih =>
    by_cases hqb : q b = true
    · rw [List.map_cons, if_pos hqb, List.find?_cons_of_pos _ hc]
    · rw [List.map_cons, if_neg hqb]
      by_cases hpb : p b = true
      · rw [List.find?_cons_of_pos _ hpb] at hfind
        have hab : b = a := by injection hfind
        rw [hab] at hqb
        exact absurd hqa hqb
      · rw [List.find?_cons_of_neg _ hpb] at hfind
        rw [List.find?_cons_of_neg _ hpb]
        exact ih hfind

/-- In a table whose `f`-column has no duplicates, looking a row up by the
`f`-value of a member returns exactly that member. -/
theorem find?_field_eq {α : Type} (f : α → String) (l : List α) (a : α)
    (hnd : (l.map f).Nodup) (ha : a ∈ l) :
    l.find? (fun x => f x == f a) = some a := by
  induction l with
  | nil => simp at ha
  | cons b tl ih =>
    rw [List.map_cons, List.nodup_cons] at hnd
    by_cases hba : (f b == f a) = true
    · have hpos : List.find? (fun x => f x == f a) (b :: tl) = some b :=
        List.find?_cons_of_pos _ hba
      rw [hpos]
      rcases List.mem_cons.mp ha with hab | hatl
      · rw [hab]
      · exact absurd (by rw [eq_of_beq hba]; exact List.mem_map_of_mem f hatl)
          hnd.1
    · have hneg : List.find? (fun x => f x == f a) (b :: tl) =
          List.find? (fun x => f x == f a) tl :=
        List.find?_cons_of_neg _ hba
      rw [hneg]
      rcases List.mem_cons.mp ha with hab | hatl
      · rw [hab] at hba; simp at hba
      · exact ih hnd.2 hatl

/-- C10: the deposit status query performs no ownership check: its result is
the same for every authenticated caller; when a transaction with the given
reference exists (whoever owns it) it answers 200 with that transaction's
reference, status and amount, and it answers 404 exactly when no transaction
with that reference exists. -/
theorem c10_deposit_status_no_ownership_check (db : Store)
    (u1 u2 reference : String) :
    GetDepositStatus db u1 reference = GetDepositStatus db u2 reference ∧
    (∀ t : Transaction, findTransactionByReference db reference = some t →
      GetDepositStatus db u1 reference =
        (200, some (t.reference, t.status, t.amount))) ∧
    (findTransactionByReference db reference = none →
      GetDepositStatus db u1 reference = (404, none)) := by
  refine ⟨rfl, ?_, ?_⟩
  · intro t ht
    simp [GetDepositStatus, ht]
  · intro hnone
    simp [GetDepositStatus, hnone]

theorem c10_witness :
    GetDepositStatus c10Db "mallory" "TXN_1" = GetDepositStatus c10Db "alice" "TXN_1" ∧
    GetDepositStatus c10Db "mallory" "TXN_1" =
      (200, some ("TXN_1", TransactionStatus.success, 5000)) := by
  refine ⟨(c10_deposit_status_no_ownership_check c10Db "mallory" "alice" "TXN_1").1, ?_⟩
  exact (c10_deposit_status_no_ownership_check c10Db "mallory" "alice" "TXN_1").2.1
    { id := "t1", userId := "alice", txType := TransactionType.deposit,
      amount := 5000, status := TransactionStatus.success, reference := "TXN_1" }
    (by decide)

/-- Running further checks inside a live window from a count `c ≤ 100`:
exactly `min ts.length (100 - c)` of them are allowed, and the counter ends
at `min (c + ts.length) 100` without the window moving. -/
theorem runRateChecks_within_window (ts : List Nat) : ∀ c r : Nat,
    1 ≤ c → c ≤ 100 → (∀ t ∈ ts, t ≤ r) →
    runRateChecks (some { count := c, resetTime := r }) ts =
      (some { count := min (c + ts.length) 100, resetTime := r },
       min ts.length (100 - c)) := by
  induction ts with
  | nil =>
    intro c r h1 h100 _
    simp only [runRateChecks, List.length_nil, Prod.mk.injEq, Option.some.injEq,
      RateLimitData.mk.injEq]
    refine ⟨⟨?_, trivial⟩, ?_⟩ <;> omega
  | cons t ts ih =>
    intro c r h1 h100 hts
    have htr : t ≤ r := hts t (List.mem_cons_self t ts)
    by_cases hcap : 100 ≤ c
    · have hc : c = 100 := le_antisymm h100 hcap
      subst hc
      simp only [runRateChecks, rateLimitCheck]
      rw [if_neg (by omega : ¬ r < t), if_pos (by omega : 100 ≤ 100)]
      rw [ih 100 r (by omega) (by omega)
        (fun x hx => hts x (List.mem_cons_of_mem t hx))]
      simp only [List.length_cons, Prod.mk.injEq, Option.some.injEq,
        RateLimitData.mk.injEq, Bool.false_eq_true, if_false]
      refine ⟨⟨?_, trivial⟩, ?_⟩ <;> omega
    · simp only [runRateChecks, rateLimitCheck]
      rw [if_neg (by omega : ¬ r < t), if_neg (by omega : ¬ 100 ≤ c)]
      rw [ih (c + 1) r (by omega) (by omega)
        (fun x hx => hts x (List.mem_cons_of_mem t hx))]
      simp only [List.length_cons, Prod.mk.injEq, Option.some.injEq,
        RateLimitData.mk.injEq, if_true]
      refine ⟨⟨?_, trivial⟩, ?_⟩ <;> omega

/-- C8: the rate guard — a check with no window, or with an elapsed window,
starts a fresh window with count 1 and allows; within a live window a check
increments and allows while the count is below the cap of 100 and rejects
once the count has reached it; consequently, starting from the check that
opened a window, at most `100` checks inside that window are allowed
(`1 + min ts.length 99`), after 99 further allowed checks the counter sits
at the cap, and every further check inside the window is rejected. -/
theorem c8_rate_guard (now : Nat) (data : RateLimitData) (ts : List Nat)
    (hts : ∀ t ∈ ts, t ≤ now + 60) :
    rateLimitCheck none now = (some { count := 1, resetTime := now + 60 }, true) ∧
    (data.resetTime < now →
      rateLimitCheck (some data) now =
        (some { count := 1, resetTime := now + 60 }, true)) ∧
    (¬ data.resetTime < now → 100 ≤ data.count →
      rateLimitCheck (some data) now = (some data, false)) ∧
    (¬ data.resetTime < now → data.count < 100 →
      rateLimitCheck (some data) now =
        (some { count := data.count + 1, resetTime := data.resetTime }, true)) ∧
    (runRateChecks (some { count := 1, resetTime := now + 60 }) ts).2 =
      min ts.length 99 ∧
    1 + (runRateChecks (some { count := 1, resetTime := now + 60 }) ts).2 ≤ 100 ∧
    (99 ≤ ts.length →
      (runRateChecks (some { count := 1, resetTime := now + 60 }) ts).1 =
        some { count := 100, resetTime := now + 60 }) ∧
    (∀ t' : Nat, t' ≤ now + 60 →
      rateLimitCheck (some { count := 100, resetTime := now + 60 }) t' =
        (some { count := 100, resetTime := now + 60 }, false)) := by
  have hrun := runRateChecks_within_window ts 1 (now + 60) (by omega) (by omega) hts
  refine ⟨rfl, ?_, ?_, ?_, ?_, ?_, ?_, ?_⟩
  · intro h
    simp only [rateLimitCheck]
    rw [if_pos h]
  · intro h hcap
    simp only [rateLimitCheck]
    rw [if_neg h, if_pos hcap]
  · intro h hlt
    simp only [rateLimitCheck]
    rw [if_neg h, if_neg (by omega : ¬ 100 ≤ data.count)]
  · simp only [hrun]
  · simp only [hrun]
    omega
  · intro hlen
    simp only [hrun, Option.some.injEq, RateLimitData.mk.injEq]
    refine ⟨?_, trivial⟩
    omega
  · intro t' ht'
    simp only [rateLimitCheck]
    rw [if_neg (by omega : ¬ now + 60 < t'), if_pos (by omega : 100 ≤ 100)]

theorem c8_witness :
    (runRateChecks (some { count := 1, resetTime := 0 + 60 }) [10, 20, 30]).2 =
      min ([10, 20, 30] : List Nat).length 99 :=
  (c8_rate_guard 0 { count := 1, resetTime := 60 } [10, 20, 30]
    (by decide)).2.2.2.2.1

/-- C6 counterexample: when the Paystack collaborator call fails, the
initiation answers 500 but the store is *not* unchanged — the pending
transaction record created before the collaborator call persists, refuting
"no transaction record is persisted by the failed initiation and the store is
unchanged". -/
theorem c6_counterexample :
    (InitiateDeposit c6Db "u1" 500 "TXN_1" "t1" false).2 = 500 ∧
    (InitiateDeposit c6Db "u1" 500 "TXN_1" "t1" false).1 ≠ c6Db ∧
    (InitiateDeposit c6Db "u1" 500 "TXN_1" "t1" false).1.transactions ≠ [] := by
  decide

/-- C6 amended: the pending transaction record is persisted *before* the
collaborator call, so when the collaborator fails the initiation answers 500
and the record remains in the store with status `pending`; wallet balances
are untouched. -/
theorem c6_amended (db : Store) (userID : String) (amount : Int)
    (reference txId : String) (w : Wallet)
    (hw : findWalletByUserId db userID = some w) (hamt : 0 < amount) :
    InitiateDeposit db userID amount reference txId false =
      (createTransaction db
        { id := txId, userId := userID, txType := TransactionType.deposit,
          amount := amount, status := TransactionStatus.pending,
          reference := reference }, 500) ∧
    (InitiateDeposit db userID amount reference txId false).1.wallets =
      db.wallets := by
  have h : InitiateDeposit db userID amount reference txId false =
      (createTransaction db
        { id := txId, userId := userID, txType := TransactionType.deposit,
          amount := amount, status := TransactionStatus.pending,
          reference := reference }, 500) := by
    simp only [InitiateDeposit, hw, Bool.false_eq_true, if_false]
    rw [if_neg (by omega : ¬ amount ≤ 0)]
  exact ⟨h, by rw [h]; rfl⟩

theorem c6_amended_witness :
    findWalletByUserId c6Db "u1" =
      some { id := "w1", userId := "u1", walletNumber := "1000000000001",
             balance := 0 } ∧
    (0 : Int) < 500 ∧
    InitiateDeposit c6Db "u1" 500 "TXN_1" "t1" false =
      (createTransaction c6Db
        { id := "t1", userId := "u1", txType := TransactionType.deposit,
          amount := 500, status := TransactionStatus.pending,
          reference := "TXN_1" }, 500) := by
  refine ⟨by decide, by decide, ?_⟩
  exact (c6_amended c6Db "u1" 500 "TXN_1" "t1"
    { id := "w1", userId := "u1", walletNumber := "1000000000001", balance := 0 }
    (by decide) (by decide)).1

/-- C7 counterexample: a transfer by a caller with no wallet answers
500 "Transfer failed", not the 404 the claim requires. -/
theorem c7_counterexample :
    TransferFunds c7Db "u1" { walletNumber := "1000000000002", amount := 50 }
      "s1" "r1" "ref1" "ref2" = (c7Db, 500, "Transfer failed") ∧
    (500 : Nat) ≠ 404 := by
  decide

/-- C7 amended: a well-formed transfer request by a caller who has no wallet
fails and changes no balance or transaction record, but the sender-wallet
lookup failure propagates as an unmapped error, so the response is
500 "Transfer failed" rather than a 404. -/
theorem c7_amended (db : Store) (userID : String) (req : TransferRequest)
    (senderTxId recipientTxId ref1 ref2 : String)
    (hnw : req.walletNumber ≠ "") (hamt : 0 < req.amount)
    (h : findWalletByUserId db userID = none) :
    TransferFunds db userID req senderTxId recipientTxId ref1 ref2 =
      (db, 500, "Transfer failed") := by
  simp only [TransferFunds, transferTx, h]
  rw [if_neg (by push_neg; exact ⟨hnw, by omega⟩)]
  rfl

theorem c7_amended_witness :
    ("1000000000002" : String) ≠ "" ∧ (0 : Int) < 50 ∧
    findWalletByUserId c7Db "u1" = none ∧
    TransferFunds c7Db "u1" { walletNumber := "1000000000002", amount := 50 }
      "s1" "r1" "ref1" "ref2" = (c7Db, 500, "Transfer failed") := by
  refine ⟨by decide, by decide, by decide, ?_⟩
  exact c7_amended c7Db "u1" { walletNumber := "1000000000002", amount := 50 }
    "s1" "r1" "ref1" "ref2" (by decide) (by decide) (by decide)

/-- A wallet found by owner is a row of the wallets table. -/
theorem findWalletByUserId_mem {db : Store} {u : String} {w : Wallet}
    (h : findWalletByUserId db u = some w) : w ∈ db.wallets :=
  List.mem_of_find?_eq_some h

/-- A wallet found by wallet number is a row of the wallets table. -/
theorem findWalletByNumber_mem {db : Store} {n : String} {w : Wallet}
    (h : findWalletByNumber db n = some w) : w ∈ db.wallets :=
  List.mem_of_find?_eq_some h

/-- Saving a transaction row leaves the wallet lookup unchanged. -/
theorem findWalletByUserId_saveTransaction (db : Store) (t : Transaction)
    (u : String) :
    findWalletByUserId (saveTransaction db t) u = findWalletByUserId db u := rfl

/-- Inversion of a successful transfer transaction: both wallets resolved,
the balance check passed, the wallets are distinct, and the resulting wallet
table is the debit update followed by the credit update. -/
theorem transferTx_ok_inv (db : Store) (userID : String) (req : TransferRequest)
    (a b c d : String) (db' : Store)
    (h : transferTx db userID req a b c d = .ok db') :
    ∃ ws wr : Wallet, findWalletByUserId db userID = some ws ∧
      findWalletByNumber db req.walletNumber = some wr ∧
      ¬ ws.balance < req.amount ∧ ws.id ≠ wr.id ∧
      db'.wallets = (db.wallets.map (fun x => if x.id == ws.id then
          { ws with balance := wrap64 (ws.balance - req.amount) } else x)).map
        (fun x => if x.id == wr.id then
          { wr with balance := wrap64 (wr.balance + req.amount) } else x) := by
  cases hs : findWalletByUserId db userID with
  | none =>
    simp only [transferTx, hs] at h
    exact Except.noConfusion h
  | some ws =>
    by_cases hbal : ws.balance < req.amount
    · simp only [transferTx, hs, if_pos hbal] at h
      exact Except.noConfusion h
    · cases hr : findWalletByNumber db req.walletNumber with
      | none =>
        simp only [transferTx, hs, if_neg hbal, hr] at h
        exact Except.noConfusion h
      | some wr =>
        by_cases hid : ws.id = wr.id
        · simp only [transferTx, hs, if_neg hbal, hr, if_pos hid] at h
          exact Except.noConfusion h
        · simp only [transferTx, hs, if_neg hbal, hr, if_neg hid,
            Except.ok.injEq] at h
          exact ⟨ws, wr, rfl, rfl, hbal, hid, by rw [← h]; rfl⟩

/-- Inversion of a successful deposit confirmation: either the record was
already `success` and the store is unchanged, or the record and owning wallet
resolved and the wallet table is the single credit update. -/
theorem processSuccessfulDeposit_ok_inv (db : Store) (reference : String)
    (amount : Int) (db' : Store)
    (h : processSuccessfulDeposit db reference amount = .ok db') :
    db' = db ∨
    ∃ t w, findTransactionByReference db reference = some t ∧
      findWalletByUserId db t.userId = some w ∧
      db'.wallets = db.wallets.map (fun x => if x.id == w.id then
        { w with balance := wrap64 (w.balance + amount) } else x) := by
  cases ht : findTransactionByReference db reference with
  | none =>
    simp only [processSuccessfulDeposit, ht] at h
    exact Except.noConfusion h
  | some t =>
    by_cases hst : t.status = TransactionStatus.success
    · simp only [processSuccessfulDeposit, ht, if_pos hst, Except.ok.injEq] at h
      exact Or.inl h.symm
    · cases hw : findWalletByUserId db t.userId with
      | none =>
        simp only [processSuccessfulDeposit, ht, if_neg hst,
          findWalletByUserId_saveTransaction, hw] at h
        exact Except.noConfusion h
      | some w =>
        simp only [processSuccessfulDeposit, ht, if_neg hst,
          findWalletByUserId_saveTransaction, hw, Except.ok.injEq] at h
        exact Or.inr ⟨t, w, rfl, hw, by rw [← h]; rfl⟩

/-- C5 counterexample: a self-transfer whose amount (20) exceeds the sender's
balance (10) fails with "Insufficient balance", not the self-transfer
rejection — the insufficient-funds check runs before the self-transfer check,
refuting "always fails SelfTransferRejected regardless of the sender's
balance or the requested amount". -/
theorem c5_counterexample :
    TransferFunds c5Db "u1" { walletNumber := "1000000000001", amount := 20 }
      "s1" "r1" "ref1" "ref2" = (c5Db, 400, "Insufficient balance") ∧
    ("Insufficient balance" : String) ≠ "Cannot transfer to your own wallet" := by
  decide

/-- C5 amended: a transfer whose sender and recipient resolve to the same
wallet always fails and changes no balance, but it fails with the
self-transfer rejection only when the request binds and the amount is within
the sender's balance; when the amount exceeds the balance the
insufficient-funds check fires first. -/
theorem c5_amended (db : Store) (userID : String) (req : TransferRequest)
    (senderTxId recipientTxId ref1 ref2 : String) (ws wr : Wallet)
    (hs : findWalletByUserId db userID = some ws)
    (hr : findWalletByNumber db req.walletNumber = some wr)
    (heq : ws.id = wr.id) :
    (TransferFunds db userID req senderTxId recipientTxId ref1 ref2).1 = db ∧
    (TransferFunds db userID req senderTxId recipientTxId ref1 ref2).2.1 ≠ 200 ∧
    (req.walletNumber ≠ "" → 0 < req.amount → req.amount ≤ ws.balance →
      TransferFunds db userID req senderTxId recipientTxId ref1 ref2 =
        (db, 400, "Cannot transfer to your own wallet")) := by
  by_cases hbind : req.walletNumber = "" ∨ req.amount ≤ 0
  · have h : TransferFunds db userID req senderTxId recipientTxId ref1 ref2 =
        (db, 400, "Invalid request") := by
      simp only [TransferFunds]
      rw [if_pos hbind]
    refine ⟨by rw [h], by rw [h]; show (400 : Nat) ≠ 200; decide, ?_⟩
    intro hnw hamt _
    rcases hbind with h1 | h2
    · exact absurd h1 hnw
    · omega
  · by_cases hbal : ws.balance < req.amount
    · have h : TransferFunds db userID req senderTxId recipientTxId ref1 ref2 =
          (db, 400, "Insufficient balance") := by
        simp only [TransferFunds, transferTx, hs, if_pos hbal]
        rw [if_neg hbind]
        rfl
      refine ⟨by rw [h], by rw [h]; show (400 : Nat) ≠ 200; decide,
        fun _ _ hle => absurd hbal (by omega)⟩
    · have h : TransferFunds db userID req senderTxId recipientTxId ref1 ref2 =
          (db, 400, "Cannot transfer to your own wallet") := by
        simp only [TransferFunds, transferTx, hs, if_neg hbal, hr, if_pos heq]
        rw [if_neg hbind]
        rfl
      exact ⟨by rw [h], by rw [h]; show (400 : Nat) ≠ 200; decide, fun _ _ _ => h⟩

theorem c5_amended_witness :
    TransferFunds c5Db "u1" { walletNumber := "1000000000001", amount := 5 }
      "s1" "r1" "ref1" "ref2" =
      (c5Db, 400, "Cannot transfer to your own wallet") :=
  (c5_amended c5Db "u1" { walletNumber := "1000000000001", amount := 5 }
    "s1" "r1" "ref1" "ref2"
    { id := "w1", userId := "u1", walletNumber := "1000000000001", balance := 10 }
    { id := "w1", userId := "u1", walletNumber := "1000000000001", balance := 10 }
    (by decide) (by decide) rfl).2.2 (by decide) (by decide) (by decide)

/-- C3 counterexample: a verified `charge.success` webhook whose signed
payload carries a negative amount is applied without any validation and
drives the wallet balance below zero: starting from balance 0, the delivery
is accepted (200) and leaves the balance at −5. -/
theorem c3_counterexample :
    (applyWebhookDeposit c3Db "TXN_1" (-5)).2 = 200 ∧
    findWalletByUserId (applyWebhookDeposit c3Db "TXN_1" (-5)).1 "u1" =
      some { id := "w1", userId := "u1", walletNumber := "1000000000001",
             balance := -5 } ∧
    (-5 : Int) < 0 := by
  decide

/-- C3 amended: starting from non-negative balances with int64 headroom for
the request's amount, a transfer — any outcome — leaves every balance
non-negative (a transfer exceeding the sender's balance is rejected with
InsufficientFunds and leaves the store untouched), and a webhook deposit
confirmation preserves non-negativity provided the payload amount is
non-negative and the credited balance does not overflow int64; the code
validates neither the webhook amount nor overflow, so a negative signed
amount (see the counterexample) or an overflowing credit violates the
invariant. -/
theorem c3_amended (db : Store) (userID : String) (req : TransferRequest)
    (senderTxId recipientTxId ref1 ref2 reference : String) (amount : Int)
    (ws : Wallet)
    (hpos : ∀ w ∈ db.wallets, 0 ≤ w.balance) :
    ((∀ w ∈ db.wallets, w.balance + req.amount ≤ int64Max) →
      ∀ w' ∈ (TransferFunds db userID req senderTxId recipientTxId
        ref1 ref2).1.wallets, 0 ≤ w'.balance) ∧
    (0 < req.amount → req.walletNumber ≠ "" →
      findWalletByUserId db userID = some ws → ws.balance < req.amount →
      TransferFunds db userID req senderTxId recipientTxId ref1 ref2 =
        (db, 400, "Insufficient balance")) ∧
    (0 ≤ amount → (∀ w ∈ db.wallets, w.balance + amount ≤ int64Max) →
      ∀ w' ∈ (applyWebhookDeposit db reference amount).1.wallets,
      0 ≤ w'.balance) := by
  refine ⟨?_, ?_, ?_⟩
  · intro hof
    by_cases hbind : req.walletNumber = "" ∨ req.amount ≤ 0
    · have h : (TransferFunds db userID req senderTxId recipientTxId
          ref1 ref2).1 = db := by
        simp only [TransferFunds]
        rw [if_pos hbind]
      intro w' hw'
      rw [h] at hw'
      exact hpos w' hw'
    · cases hres : transferTx db userID req senderTxId recipientTxId ref1 ref2 with
      | error e =>
        have h : (TransferFunds db userID req senderTxId recipientTxId
            ref1 ref2).1 = db := by
          simp only [TransferFunds, hres]
          rw [if_neg hbind]
        intro w' hw'
        rw [h] at hw'
        exact hpos w' hw'
      | ok db2 =>
        have h : (TransferFunds db userID req senderTxId recipientTxId
            ref1 ref2).1 = db2 := by
          simp only [TransferFunds, hres]
          rw [if_neg hbind]
        intro w' hw'
        rw [h] at hw'
        obtain ⟨wsnd, wrcv, hsnd, hrcv, hbal, _, hwal⟩ :=
          transferTx_ok_inv db userID req senderTxId recipientTxId ref1 ref2
            db2 hres
        rw [hwal] at hw'
        have hamt : 0 < req.amount := by push_neg at hbind; omega
        rcases List.mem_map.mp hw' with ⟨y, hy, hy2⟩
        rcases List.mem_map.mp hy with ⟨x, hx, hx2⟩
        subst hy2
        by_cases h2 : (y.id == wrcv.id) = true
        · rw [if_pos h2]
          have hwb : 0 ≤ wrcv.balance := hpos wrcv (findWalletByNumber_mem hrcv)
          have hwof : wrcv.balance + req.amount ≤ int64Max :=
            hof wrcv (findWalletByNumber_mem hrcv)
          simp only [int64Max] at hwof
          show 0 ≤ wrap64 (wrcv.balance + req.amount)
          simp only [wrap64]
          omega
        · rw [if_neg h2]
          subst hx2
          by_cases h1 : (x.id == wsnd.id) = true
          · rw [if_pos h1]
            have hwb : 0 ≤ wsnd.balance := hpos wsnd (findWalletByUserId_mem hsnd)
            have hwof : wsnd.balance + req.amount ≤ int64Max :=
              hof wsnd (findWalletByUserId_mem hsnd)
            simp only [int64Max] at hwof
            show 0 ≤ wrap64 (wsnd.balance - req.amount)
            simp only [wrap64]
            omega
          · rw [if_neg h1]
            exact hpos x hx
  · intro hamt hnw hsw hbal
    simp only [TransferFunds, transferTx, hsw, if_pos hbal]
    rw [if_neg (by push_neg; exact ⟨hnw, by omega⟩)]
    rfl
  · intro hamt hof w' hw'
    cases hres : processSuccessfulDeposit db reference amount with
    | error e =>
      have h : (applyWebhookDeposit db reference amount).1 = db := by
        simp only [applyWebhookDeposit, hres]
      rw [h] at hw'
      exact hpos w' hw'
    | ok db2 =>
      have h : (applyWebhookDeposit db reference amount).1 = db2 := by
        simp only [applyWebhookDeposit, hres]
      rw [h] at hw'
      rcases processSuccessfulDeposit_ok_inv db reference amount db2 hres with
        hdb | ⟨t, w, _, hfw, hwal⟩
      · rw [hdb] at hw'
        exact hpos w' hw'
      · rw [hwal] at hw'
        rcases List.mem_map.mp hw' with ⟨x, hx, hx2⟩
        subst hx2
        by_cases h1 : (x.id == w.id) = true
        · rw [if_pos h1]
          have hwb : 0 ≤ w.balance := hpos w (findWalletByUserId_mem hfw)
          have hwof : w.balance + amount ≤ int64Max :=
            hof w (findWalletByUserId_mem hfw)
          simp only [int64Max] at hwof
          show 0 ≤ wrap64 (w.balance + amount)
          simp only [wrap64]
          omega
        · rw [if_neg h1]
          exact hpos x hx

theorem c3_amended_witness :
    TransferFunds c3WDb "u1" { walletNumber := "1000000000002", amount := 20 }
      "s1" "r1" "ref1" "ref2" = (c3WDb, 400, "Insufficient balance") :=
  (c3_amended c3WDb "u1" { walletNumber := "1000000000002", amount := 20 }
    "s1" "r1" "ref1" "ref2" "TXN_X" 0
    { id := "w1", userId := "u1", walletNumber := "1000000000001", balance := 10 }
    (by decide)).2.1 (by decide) (by decide) (by decide) (by decide)

/-- A transaction found by reference carries that reference. -/
theorem findTransactionByReference_ref {db : Store} {r : String}
    {t : Transaction} (h : findTransactionByReference db r = some t) :
    (t.reference == r) = true := by
  have h' : db.transactions.find? (fun x => x.reference == r) = some t := h
  simpa using List.find?_some h'

/-- A wallet found by owner carries that owner. -/
theorem findWalletByUserId_userId {db : Store} {u : String} {w : Wallet}
    (h : findWalletByUserId db u = some w) : (w.userId == u) = true := by
  have h' : db.wallets.find? (fun x => x.userId == u) = some w := h
  simpa using List.find?_some h'

/-- C1: webhook idempotence.  For a deposit reference whose transaction
record exists with a not-yet-`success` status and whose owning wallet exists,
the first `charge.success` delivery credits the wallet by the payload amount
and marks the record `success`; on the resulting store a repeat delivery
returns success without any mutation, so delivering N = n+1 ≥ 1 times leaves
exactly the state after one delivery and the balance is credited exactly
once. -/
theorem c1_webhook_idempotence (db : Store) (reference : String) (amount : Int)
    (t : Transaction) (w : Wallet) (n : Nat)
    (ht : findTransactionByReference db reference = some t)
    (hst : t.status ≠ TransactionStatus.success)
    (hw : findWalletByUserId db t.userId = some w) :
    processSuccessfulDeposit db reference amount =
      .ok (saveWallet
        (saveTransaction db { t with status := TransactionStatus.success })
        { w with balance := wrap64 (w.balance + amount) }) ∧
    findWalletByUserId (applyWebhookDeposit db reference amount).1 t.userId =
      some { w with balance := wrap64 (w.balance + amount) } ∧
    findTransactionByReference (applyWebhookDeposit db reference amount).1
        reference = some { t with status := TransactionStatus.success } ∧
    processSuccessfulDeposit (applyWebhookDeposit db reference amount).1
        reference amount = .ok (applyWebhookDeposit db reference amount).1 ∧
    (applyWebhookDeposit (applyWebhookDeposit db reference amount).1
        reference amount).2 = 200 ∧
    (fun s => (applyWebhookDeposit s reference amount).1)^[n + 1] db =
      (applyWebhookDeposit db reference amount).1 := by
  have h1 : processSuccessfulDeposit db reference amount =
      .ok (saveWallet
        (saveTransaction db { t with status := TransactionStatus.success })
        { w with balance := wrap64 (w.balance + amount) }) := by
    simp only [processSuccessfulDeposit, ht, if_neg hst,
      findWalletByUserId_saveTransaction, hw]
  have hstore : (applyWebhookDeposit db reference amount).1 =
      saveWallet
        (saveTransaction db { t with status := TransactionStatus.success })
        { w with balance := wrap64 (w.balance + amount) } := by
    simp only [applyWebhookDeposit, h1]
  have hfw : findWalletByUserId (applyWebhookDeposit db reference amount).1
      t.userId = some { w with balance := wrap64 (w.balance + amount) } := by
    have hw' : db.wallets.find? (fun x => x.userId == t.userId) = some w := hw
    rw [hstore]
    show (db.wallets.map (fun x =>
        if x.id == ({ w with balance := wrap64 (w.balance + amount) } : Wallet).id then
          { w with balance := wrap64 (w.balance + amount) } else x)).find?
      (fun x => x.userId == t.userId) = _
    exact find?_map_if_update
      (fun x => x.id == ({ w with balance := wrap64 (w.balance + amount) } : Wallet).id)
      (fun x => x.userId == t.userId)
      { w with balance := wrap64 (w.balance + amount) } db.wallets w hw' (by simp)
      (findWalletByUserId_userId hw)
  have hft : findTransactionByReference (applyWebhookDeposit db reference
      amount).1 reference =
      some { t with status := TransactionStatus.success } := by
    have ht' : db.transactions.find? (fun x => x.reference == reference) =
      some t := ht
    rw [hstore]
    show (db.transactions.map (fun x =>
        if x.id == ({ t with status := TransactionStatus.success } :
            Transaction).id then
          { t with status := TransactionStatus.success } else x)).find?
      (fun x => x.reference == reference) = _
    exact find?_map_if_update
      (fun x => x.id == ({ t with status := TransactionStatus.success } :
        Transaction).id)
      (fun x => x.reference == reference)
      { t with status := TransactionStatus.success } db.transactions t ht'
      (by simp) (findTransactionByReference_ref ht)
  have h2 : processSuccessfulDeposit (applyWebhookDeposit db reference
      amount).1 reference amount =
      .ok (applyWebhookDeposit db reference amount).1 := by
    simp only [processSuccessfulDeposit, hft]
    simp
  have h3 : (applyWebhookDeposit (applyWebhookDeposit db reference amount).1
      reference amount).2 = 200 := by
    have h2' := h2
    simp only [applyWebhookDeposit] at h2' ⊢
    rw [h2']
  have hgfix : ∀ m : Nat,
      (fun s => (applyWebhookDeposit s reference amount).1)^[m]
        (applyWebhookDeposit db reference amount).1 =
      (applyWebhookDeposit db reference amount).1 := by
    intro m
    induction m with
    | zero => rfl
    | succ k ihk =>
      rw [Function.iterate_succ_apply]
      have hstep : (applyWebhookDeposit (applyWebhookDeposit db reference
          amount).1 reference amount).1 =
          (applyWebhookDeposit db reference amount).1 := by
        have h2' := h2
        simp only [applyWebhookDeposit] at h2' ⊢
        rw [h2']
      simpa [hstep] using ihk
  refine ⟨h1, hfw, hft, h2, h3, ?_⟩
  rw [Function.iterate_succ_apply]
  exact hgfix n

theorem c1_witness :
    findWalletByUserId (applyWebhookDeposit c1Db "TXN_1" 50).1 "u1" =
      some { id := "w1", userId := "u1", walletNumber := "1000000000001",
             balance := 150 } ∧
    processSuccessfulDeposit (applyWebhookDeposit c1Db "TXN_1" 50).1
      "TXN_1" 50 = .ok (applyWebhookDeposit c1Db "TXN_1" 50).1 ∧
    (applyWebhookDeposit (applyWebhookDeposit c1Db "TXN_1" 50).1
      "TXN_1" 50).2 = 200 := by
  have h := c1_webhook_idempotence c1Db "TXN_1" 50
    { id := "t1", userId := "u1", txType := TransactionType.deposit,
      amount := 50, status := TransactionStatus.pending, reference := "TXN_1" }
    { id := "w1", userId := "u1", walletNumber := "1000000000001",
      balance := 100 }
    2 (by decide) (by decide) (by decide)
  exact ⟨h.2.1.trans (by decide), h.2.2.2.1, h.2.2.2.2.1⟩

/-- `find?` skips a prefix containing no match. -/
theorem find?_append_of_none {α : Type} (p : α → Bool) (l1 l2 : List α)
    (h : l1.find? p = none) : (l1 ++ l2).find? p = l2.find? p := by
  induction l1 with
  | nil => rfl
  | cons a t ih =>
    by_cases hpa : p a = true
    · rw [List.find?_cons_of_pos _ hpa] at h
      exact absurd h (by simp)
    · rw [List.find?_cons_of_neg _ hpa] at h
      rw [List.cons_append, List.find?_cons_of_neg _ hpa]
      exact ih h

/-- Filtering preserves the absence of a match. -/
theorem find?_filter_none {α : Type} (p q : α → Bool) (l : List α)
    (h : l.find? p = none) : (l.filter q).find? p = none := by
  rw [List.find?_eq_none] at h ⊢
  intro x hx
  exact h x (List.mem_filter.mp hx).1

/-- C4 counterexample: main.go installs no idempotency middleware on any
route, so delivering the same transfer request twice with the same
idempotency token through the deployed pipeline runs the handler twice —
the sender is debited twice (100 → 70 → 40), refuting "the underlying side
effect occurs exactly once" and "the second execution is replayed from the
idempotency cache". -/
theorem c4_counterexample :
    (deployedTransferRoute c4Db "ua"
      { walletNumber := "2222222222222", amount := 30 }
      "s1" "c1" "TR1" "TR2" "tok").2.1 = 200 ∧
    findWalletByUserId
      (deployedTransferRoute c4Db "ua"
        { walletNumber := "2222222222222", amount := 30 }
        "s1" "c1" "TR1" "TR2" "tok").1 "ua" =
      some { id := "wa", userId := "ua", walletNumber := "1111111111111",
             balance := 70 } ∧
    (deployedTransferRoute
      (deployedTransferRoute c4Db "ua"
        { walletNumber := "2222222222222", amount := 30 }
        "s1" "c1" "TR1" "TR2" "tok").1 "ua"
      { walletNumber := "2222222222222", amount := 30 }
      "s2" "c2" "TR3" "TR4" "tok").2.1 = 200 ∧
    findWalletByUserId
      (deployedTransferRoute
        (deployedTransferRoute c4Db "ua"
          { walletNumber := "2222222222222", amount := 30 }
          "s1" "c1" "TR1" "TR2" "tok").1 "ua"
        { walletNumber := "2222222222222", amount := 30 }
        "s2" "c2" "TR3" "TR4" "tok").1 "ua" =
      some { id := "wa", userId := "ua", walletNumber := "1111111111111",
             balance := 40 } ∧
    (40 : Int) ≠ 70 := by
  decide

/-- C4 amended: the idempotency middleware itself implements the claimed
replay — a first delivery with a fresh token whose handler answers 2xx is
captured, and a second delivery of the same (caller, path, token) within the
24-hour lifetime returns exactly the first result: same status, same body,
and no store change (the handler is not re-executed).  The deployed pipeline
in main.go, however, never installs this middleware (see the
counterexample). -/
theorem c4_amended (keyHashFn : String → String → String → String)
    (handler : Store → Store × Nat × String) (db : Store)
    (keys : List IdempotencyKey) (now now' : Nat)
    (userID path token body body' : String)
    (htok : token ≠ "")
    (hmiss : lookupIdempotencyKey keys (keyHashFn userID path token)
      userID = none)
    (hsucc : 200 ≤ (handler db).2.1) (hsucc2 : (handler db).2.1 < 300)
    (hunexp : ¬ now + idempotencyTTL < now') :
    IdempotencyMiddleware keyHashFn handler
      (IdempotencyMiddleware keyHashFn handler db keys now userID path token
        body).1
      (IdempotencyMiddleware keyHashFn handler db keys now userID path token
        body).2.1
      now' userID path token body' =
    IdempotencyMiddleware keyHashFn handler db keys now userID path token
      body := by
  have hr1 : IdempotencyMiddleware keyHashFn handler db keys now userID path
      token body =
      ((handler db).1,
       (keys ++ [storedIdempotencyKey (keyHashFn userID path token) userID
          path body (handler db).2.1 (handler db).2.2 now]).filter
            (fun k => !(k.expiresAt < now)),
       (handler db).2.1, (handler db).2.2) := by
    simp only [IdempotencyMiddleware, runHandlerAndStoreKey, hmiss]
    rw [if_neg htok, if_pos ⟨hsucc, hsucc2⟩]
    rfl
  have hfilter : (keys ++ [storedIdempotencyKey (keyHashFn userID path token)
      userID path body (handler db).2.1 (handler db).2.2 now]).filter
        (fun k => !(k.expiresAt < now)) =
      keys.filter (fun k => !(k.expiresAt < now)) ++
      [storedIdempotencyKey (keyHashFn userID path token) userID path body
        (handler db).2.1 (handler db).2.2 now] := by
    rw [List.filter_append]
    congr 1
    simp [List.filter, storedIdempotencyKey]
  have hlook2 : lookupIdempotencyKey
      ((keys ++ [storedIdempotencyKey (keyHashFn userID path token) userID
         path body (handler db).2.1 (handler db).2.2 now]).filter
           (fun k => !(k.expiresAt < now)))
      (keyHashFn userID path token) userID =
      some (storedIdempotencyKey (keyHashFn userID path token) userID path
        body (handler db).2.1 (handler db).2.2 now) := by
    rw [hfilter]
    show (keys.filter (fun (k : IdempotencyKey) => !(k.expiresAt < now)) ++
        [storedIdempotencyKey (keyHashFn userID path token) userID path body
          (handler db).2.1 (handler db).2.2 now]).find?
        (fun (k : IdempotencyKey) =>
          k.key == keyHashFn userID path token && k.userId == userID)
      = _
    rw [find?_append_of_none _ _ _ (find?_filter_none _ _ _ hmiss)]
    exact List.find?_cons_of_pos _ (by simp [storedIdempotencyKey])
  rw [hr1]
  simp only [IdempotencyMiddleware, hlook2]
  rw [if_neg htok,
    if_neg (by simpa [IdempotencyKey.IsExpired, storedIdempotencyKey]
      using hunexp)]
  rfl

theorem c4_amended_witness :
    IdempotencyMiddleware c4HashFn c4Handler
      (IdempotencyMiddleware c4HashFn c4Handler c4Db [] 0 "ua"
        "/wallet/transfer" "tok" "body1").1
      (IdempotencyMiddleware c4HashFn c4Handler c4Db [] 0 "ua"
        "/wallet/transfer" "tok" "body1").2.1
      10 "ua" "/wallet/transfer" "tok" "body1" =
    IdempotencyMiddleware c4HashFn c4Handler c4Db [] 0 "ua"
      "/wallet/transfer" "tok" "body1" :=
  c4_amended c4HashFn c4Handler c4Db [] 0 10 "ua" "/wallet/transfer" "tok"
    "body1" "body1" (by decide) (by decide) (by decide) (by decide)
    (by decide)

/-- The idempotency lookup only ever returns records whose stored user id is
the caller's. -/
theorem lookupIdempotencyKey_userId {ks : List IdempotencyKey}
    {hv u : String} {r : IdempotencyKey}
    (h : lookupIdempotencyKey ks hv u = some r) : r.userId = u := by
  have h' : ks.find? (fun k => k.key == hv && k.userId == u) = some r := h
  have hp := List.find?_some h'
  simp only [Bool.and_eq_true] at hp
  exact eq_of_beq hp.2

/-- Any record present after the continue path was either already stored or
was created with the current caller's identity. -/
theorem runHandlerAndStoreKey_keys_mem
    (handler : Store → Store × Nat × String) (db : Store)
    (keys0 keys : List IdempotencyKey) (now : Nat)
    (kh u path body : String)
    (hsub : ∀ k ∈ keys0, k ∈ keys) :
    ∀ r ∈ (runHandlerAndStoreKey handler db keys0 now kh u path body).2.1,
      r ∈ keys ∨ r.userId = u := by
  intro r hr
  simp only [runHandlerAndStoreKey] at hr
  by_cases h2 : 200 ≤ (handler db).2.1 ∧ (handler db).2.1 < 300
  · rw [if_pos h2] at hr
    simp only at hr
    rcases List.mem_append.mp (List.mem_filter.mp hr).1 with hk | hnew
    · exact Or.inl (hsub r hk)
    · rcases List.mem_singleton.mp hnew with rfl
      exact Or.inr rfl
  · rw [if_neg h2] at hr
    simp only at hr
    exact Or.inl (hsub r hr)

/-- C9: idempotency records are isolated per caller.  The lookup filters by
the caller's user id, so it only ever returns the caller's own records; a
request by caller `u1` only creates records carrying `u1`; hence for distinct
callers `u1 ≠ u2`, a record created by `u1`'s request is never returned to
`u2` — whatever hash value `u2` presents, and even though the stored key hash
also covers caller, path and token. -/
theorem c9_idempotency_isolation
    (keyHashFn : String → String → String → String)
    (handler : Store → Store × Nat × String) (db : Store)
    (keys : List IdempotencyKey) (now : Nat)
    (u1 u2 path token body : String) (hne : u1 ≠ u2) :
    (∀ (ks : List IdempotencyKey) (hv : String) (r : IdempotencyKey),
      lookupIdempotencyKey ks hv u2 = some r → r.userId = u2) ∧
    (∀ r ∈ (IdempotencyMiddleware keyHashFn handler db keys now u1 path token
        body).2.1, r ∈ keys ∨ r.userId = u1) ∧
    (∀ (hv : String) (r : IdempotencyKey),
      r ∈ (IdempotencyMiddleware keyHashFn handler db keys now u1 path token
        body).2.1 → r ∉ keys →
      lookupIdempotencyKey
        (IdempotencyMiddleware keyHashFn handler db keys now u1 path token
          body).2.1 hv u2 ≠ some r) := by
  have hmem : ∀ r ∈ (IdempotencyMiddleware keyHashFn handler db keys now u1
      path token body).2.1, r ∈ keys ∨ r.userId = u1 := by
    intro r hr
    by_cases htok : token = ""
    · simp only [IdempotencyMiddleware, if_pos htok] at hr
      exact Or.inl hr
    · simp only [IdempotencyMiddleware] at hr
      rw [if_neg htok] at hr
      cases hlk : lookupIdempotencyKey keys (keyHashFn u1 path token) u1 with
      | some k =>
        rw [hlk] at hr
        simp only at hr
        by_cases hexp : (k.IsExpired now) = true
        · rw [if_pos hexp] at hr
          exact runHandlerAndStoreKey_keys_mem handler db _ keys now _ u1 path
            body (fun x hx => (List.mem_filter.mp hx).1) r hr
        · rw [if_neg hexp] at hr
          exact Or.inl hr
      | none =>
        rw [hlk] at hr
        simp only at hr
        exact runHandlerAndStoreKey_keys_mem handler db keys keys now _ u1
          path body (fun x hx => hx) r hr
  refine ⟨fun ks hv r h => lookupIdempotencyKey_userId h, hmem, ?_⟩
  intro hv r hr hnk heq
  have hu2 : r.userId = u2 := lookupIdempotencyKey_userId heq
  rcases hmem r hr with hk | hu1
  · exact hnk hk
  · exact hne (hu1 ▸ hu2)

theorem c9_witness :
    ("ua" : String) ≠ "ub" ∧
    c9NewKey ∈ c9Keys1 ∧
    c9NewKey ∉ ([] : List IdempotencyKey) ∧
    lookupIdempotencyKey c9Keys1 (c9HashFn "ua" "/wallet/transfer" "tok")
      "ub" ≠ some c9NewKey := by
  refine ⟨by decide, by decide, by decide, ?_⟩
  exact (c9_idempotency_isolation c9HashFn c9Handler
    { wallets := [], transactions := [] } [] 0 "ua" "ub" "/wallet/transfer"
    "tok" "body1" (by decide)).2.2
    (c9HashFn "ua" "/wallet/transfer" "tok") c9NewKey (by decide) (by decide)

/-- A transfer either leaves the store untouched (binding failure or rolled
back transaction) or commits exactly the successful transaction's store. -/
theorem TransferFunds_store (db : Store) (userID : String)
    (req : TransferRequest) (a b c d : String) :
    (TransferFunds db userID req a b c d).1 = db ∨
    (¬ (req.walletNumber = "" ∨ req.amount ≤ 0) ∧
      transferTx db userID req a b c d =
        .ok (TransferFunds db userID req a b c d).1) := by
  by_cases hbind : req.walletNumber = "" ∨ req.amount ≤ 0
  · left
    simp only [TransferFunds]
    rw [if_pos hbind]
  · cases hres : transferTx db userID req a b c d with
    | error e =>
      left
      simp only [TransferFunds, hres]
      rw [if_neg hbind]
    | ok db2 =>
      right
      refine ⟨hbind, ?_⟩
      have h : (TransferFunds db userID req a b c d).1 = db2 := by
        simp only [TransferFunds, hres]
        rw [if_neg hbind]
      rw [h]

/-- An id-preserving row update commutes with a lookup by id. -/
theorem find?_id_update_pred (l : List Wallet) (c : Wallet) (j : String)
    (hc : c.id = j) (i : String) :
    (l.map (fun x => if x.id == j then c else x)).find?
        (fun w => w.id == i) =
      Option.map (fun x => if x.id == j then c else x)
        (l.find? (fun w => w.id == i)) := by
  apply find?_map_pred
  intro x
  by_cases hx : (x.id == j) = true
  · rw [if_pos hx]
    have hxj : x.id = j := eq_of_beq hx
    rw [hc, hxj]
  · rw [if_neg hx]

/-- The committed store of a successful transfer: the debited sender row, the
credited recipient row, the balances both wallets had before, and the
unchanged identifying columns. -/
theorem transfer_sum_preserved (db : Store) (ws wr : Wallet) (amt : Int)
    (hndI : (db.wallets.map Wallet.id).Nodup)
    (hws : ws ∈ db.wallets) (hwr : wr ∈ db.wallets) (hid : ws.id ≠ wr.id)
    (db2 : Store)
    (hwal : db2.wallets = (db.wallets.map (fun x => if x.id == ws.id then
        { ws with balance := wrap64 (ws.balance - amt) } else x)).map
      (fun x => if x.id == wr.id then
        { wr with balance := wrap64 (wr.balance + amt) } else x)) :
    balanceOf db2 ws.id = wrap64 (ws.balance - amt) ∧
    balanceOf db2 wr.id = wrap64 (wr.balance + amt) ∧
    walletKeys db2 = walletKeys db ∧
    balanceOf db ws.id = ws.balance ∧ balanceOf db wr.id = wr.balance := by
  have hfS : db.wallets.find? (fun w => w.id == ws.id) = some ws :=
    find?_field_eq Wallet.id db.wallets ws hndI hws
  have hfR : db.wallets.find? (fun w => w.id == wr.id) = some wr :=
    find?_field_eq Wallet.id db.wallets wr hndI hwr
  have hbS : balanceOf db2 ws.id = wrap64 (ws.balance - amt) := by
    have hstep1 : (db.wallets.map (fun x => if x.id == ws.id then
        { ws with balance := wrap64 (ws.balance - amt) } else x)).find?
        (fun w => w.id == ws.id) =
        some { ws with balance := wrap64 (ws.balance - amt) } :=
      find?_map_if_update _ _ _ _ _ hfS (by simp) (by simp)
    have hstep2 : db2.wallets.find? (fun w => w.id == ws.id) =
        some { ws with balance := wrap64 (ws.balance - amt) } := by
      rw [hwal, find?_id_update_pred
        (db.wallets.map (fun x => if x.id == ws.id then
          { ws with balance := wrap64 (ws.balance - amt) } else x))
        { wr with balance := wrap64 (wr.balance + amt) } wr.id rfl ws.id, hstep1]
      simp [hid]
    simp only [balanceOf, hstep2]
  have hbR : balanceOf db2 wr.id = wrap64 (wr.balance + amt) := by
    have hstep1 : (db.wallets.map (fun x => if x.id == ws.id then
        { ws with balance := wrap64 (ws.balance - amt) } else x)).find?
        (fun w => w.id == wr.id) = some wr := by
      rw [find?_id_update_pred db.wallets
        { ws with balance := wrap64 (ws.balance - amt) } ws.id rfl wr.id, hfR]
      simp [Ne.symm hid]
    have hstep2 : db2.wallets.find? (fun w => w.id == wr.id) =
        some { wr with balance := wrap64 (wr.balance + amt) } := by
      rw [hwal]
      exact find?_map_if_update _ _ _ _ _ hstep1 (by simp) (by simp)
    simp only [balanceOf, hstep2]
  have hkeys : walletKeys db2 = walletKeys db := by
    rw [walletKeys, walletKeys, hwal, List.map_map, List.map_map]
    apply List.map_congr_left
    intro x hx
    simp only [Function.comp]
    by_cases h1 : (x.id == ws.id) = true
    · have hxw : x = ws := List.inj_on_of_nodup_map hndI hx hws (eq_of_beq h1)
      rw [if_pos h1, if_neg (by simp [hid]), hxw]
    · rw [if_neg h1]
      by_cases h2 : (x.id == wr.id) = true
      · have hxr : x = wr :=
          List.inj_on_of_nodup_map hndI hx hwr (eq_of_beq h2)
        rw [if_pos h2, hxr]
      · rw [if_neg h2]
  exact ⟨hbS, hbR, hkeys, by simp only [balanceOf, hfS],
    by simp only [balanceOf, hfR]⟩

/-- Equal identifying columns componentwise. -/
theorem walletKeys_fields {db db' : Store}
    (h : walletKeys db' = walletKeys db) :
    db'.wallets.map Wallet.id = db.wallets.map Wallet.id ∧
    db'.wallets.map Wallet.userId = db.wallets.map Wallet.userId ∧
    db'.wallets.map Wallet.walletNumber =
      db.wallets.map Wallet.walletNumber := by
  refine ⟨?_, ?_, ?_⟩
  · have h1 := congrArg (List.map (fun p : String × String × String => p.1)) h
    simpa [walletKeys, List.map_map, Function.comp] using h1
  · have h1 := congrArg (List.map (fun p : String × String × String => p.2.1)) h
    simpa [walletKeys, List.map_map, Function.comp] using h1
  · have h1 := congrArg (List.map (fun p : String × String × String => p.2.2)) h
    simpa [walletKeys, List.map_map, Function.comp] using h1

/-- One transfer request between the two tracked wallets — whatever its
outcome — preserves their balance sum modulo 2^64 (int64 wrapping) and the
identifying columns of the wallets table; when every balance is non-negative
with int64 headroom for the request's amount, the sum is preserved
exactly. -/
theorem applyTransfer_between (db : Store) (s : TransferStep)
    (iA uA nA iB uB nB : String)
    (hndI : (db.wallets.map Wallet.id).Nodup)
    (hndU : (db.wallets.map Wallet.userId).Nodup)
    (hndN : (db.wallets.map Wallet.walletNumber).Nodup)
    (hkA : (iA, uA, nA) ∈ walletKeys db) (hkB : (iB, uB, nB) ∈ walletKeys db)
    (hAB : iA ≠ iB)
    (hu : s.userID = uA ∨ s.userID = uB)
    (hn : s.req.walletNumber = nA ∨ s.req.walletNumber = nB) :
    Int.ModEq 18446744073709551616
      (balanceOf (applyTransfer db s) iA + balanceOf (applyTransfer db s) iB)
      (balanceOf db iA + balanceOf db iB) ∧
    walletKeys (applyTransfer db s) = walletKeys db ∧
    ((∀ w ∈ db.wallets, 0 ≤ w.balance ∧
        w.balance + s.req.amount ≤ int64Max) →
      balanceOf (applyTransfer db s) iA + balanceOf (applyTransfer db s) iB =
        balanceOf db iA + balanceOf db iB) := by
  obtain ⟨wA, hwA, hkeyA⟩ := List.mem_map.mp hkA
  obtain ⟨wB, hwB, hkeyB⟩ := List.mem_map.mp hkB
  obtain ⟨hidA, huA, hnA⟩ : wA.id = iA ∧ wA.userId = uA ∧
      wA.walletNumber = nA := by
    simpa [Prod.ext_iff] using hkeyA
  obtain ⟨hidB, huB, hnB⟩ : wB.id = iB ∧ wB.userId = uB ∧
      wB.walletNumber = nB := by
    simpa [Prod.ext_iff] using hkeyB
  subst hidA
  subst hidB
  subst huA
  subst huB
  subst hnA
  subst hnB
  simp only [applyTransfer]
  rcases TransferFunds_store db s.userID s.req s.senderTxId s.recipientTxId
    s.ref1 s.ref2 with hsame | ⟨hbindok, hok⟩
  · rw [hsame]
    exact ⟨Int.ModEq.refl _, rfl, fun _ => rfl⟩
  · obtain ⟨ws, wr, hsnd, hrcv, hbal, hid, hwal⟩ :=
      transferTx_ok_inv db s.userID s.req s.senderTxId s.recipientTxId
        s.ref1 s.ref2 _ hok
    have hws : ws = wA ∨ ws = wB := by
      rcases hu with h | h
      · left
        have hfind : db.wallets.find? (fun x => x.userId == wA.userId) =
            some wA := find?_field_eq Wallet.userId db.wallets wA hndU hwA
        have hsnd' : db.wallets.find? (fun x => x.userId == wA.userId) =
            some ws := by
          rw [← h]
          exact hsnd
        rw [hfind] at hsnd'
        injection hsnd' with hh
        exact hh.symm
      · right
        have hfind : db.wallets.find? (fun x => x.userId == wB.userId) =
            some wB := find?_field_eq Wallet.userId db.wallets wB hndU hwB
        have hsnd' : db.wallets.find? (fun x => x.userId == wB.userId) =
            some ws := by
          rw [← h]
          exact hsnd
        rw [hfind] at hsnd'
        injection hsnd' with hh
        exact hh.symm
    have hwr : wr = wA ∨ wr = wB := by
      rcases hn with h | h
      · left
        have hfind : db.wallets.find?
            (fun x => x.walletNumber == wA.walletNumber) = some wA :=
          find?_field_eq Wallet.walletNumber db.wallets wA hndN hwA
        have hrcv' : db.wallets.find?
            (fun x => x.walletNumber == wA.walletNumber) = some wr := by
          rw [← h]
          exact hrcv
        rw [hfind] at hrcv'
        injection hrcv' with hh
        exact hh.symm
      · right
        have hfind : db.wallets.find?
            (fun x => x.walletNumber == wB.walletNumber) = some wB :=
          find?_field_eq Wallet.walletNumber db.wallets wB hndN hwB
        have hrcv' : db.wallets.find?
            (fun x => x.walletNumber == wB.walletNumber) = some wr := by
          rw [← h]
          exact hrcv
        rw [hfind] at hrcv'
        injection hrcv' with hh
        exact hh.symm
    have hmemS : ws ∈ db.wallets := findWalletByUserId_mem hsnd
    have hmemR : wr ∈ db.wallets := findWalletByNumber_mem hrcv
    obtain ⟨hbS, hbR, hkeys, hb0S, hb0R⟩ := transfer_sum_preserved db ws wr
      s.req.amount hndI hmemS hmemR hid _ hwal
    have hamt : 0 < s.req.amount := by push_neg at hbindok; omega
    rcases hws with hws | hws <;> rcases hwr with hwr | hwr
    · rw [hws, hwr] at hid
      exact absurd rfl hid
    · refine ⟨?_, hkeys, ?_⟩
      · rw [← hws, ← hwr, hbS, hbR, hb0S, hb0R]
        simp only [Int.ModEq, wrap64]
        omega
      · intro hrange
        rw [← hws, ← hwr, hbS, hbR, hb0S, hb0R]
        obtain ⟨hS1, hS2⟩ := hrange ws hmemS
        obtain ⟨hR1, hR2⟩ := hrange wr hmemR
        simp only [int64Max] at hS2 hR2
        simp only [wrap64]
        omega
    · refine ⟨?_, hkeys, ?_⟩
      · rw [← hws, ← hwr, hbS, hbR, hb0S, hb0R]
        simp only [Int.ModEq, wrap64]
        omega
      · intro hrange
        rw [← hws, ← hwr, hbS, hbR, hb0S, hb0R]
        obtain ⟨hS1, hS2⟩ := hrange ws hmemS
        obtain ⟨hR1, hR2⟩ := hrange wr hmemR
        simp only [int64Max] at hS2 hR2
        simp only [wrap64]
        omega
    · rw [hws, hwr] at hid
      exact absurd rfl hid

/-- A sequence of transfer requests between the two tracked wallets leaves
their balance sum invariant modulo 2^64 (int64 wrapping). -/
theorem applyTransfers_between (steps : List TransferStep) :
    ∀ (db : Store) (iA uA nA iB uB nB : String),
    (db.wallets.map Wallet.id).Nodup →
    (db.wallets.map Wallet.userId).Nodup →
    (db.wallets.map Wallet.walletNumber).Nodup →
    (iA, uA, nA) ∈ walletKeys db → (iB, uB, nB) ∈ walletKeys db →
    iA ≠ iB →
    (∀ s ∈ steps, (s.userID = uA ∨ s.userID = uB) ∧
      (s.req.walletNumber = nA ∨ s.req.walletNumber = nB)) →
    Int.ModEq 18446744073709551616
      (balanceOf (applyTransfers db steps) iA +
        balanceOf (applyTransfers db steps) iB)
      (balanceOf db iA + balanceOf db iB) := by
  induction steps with
  | nil =>
    intro db iA uA nA iB uB nB _ _ _ _ _ _ _
    exact Int.ModEq.refl _
  | cons s rest ih =>
    intro db iA uA nA iB uB nB hndI hndU hndN hkA hkB hAB hsteps
    obtain ⟨hsum, hkeys, _⟩ := applyTransfer_between db s iA uA nA iB uB nB
      hndI hndU hndN hkA hkB hAB
      (hsteps s (List.mem_cons_self s rest)).1
      (hsteps s (List.mem_cons_self s rest)).2
    obtain ⟨hids, hus, hns⟩ := walletKeys_fields hkeys
    have h1 := ih (applyTransfer db s) iA uA nA iB uB nB
      (by rw [hids]; exact hndI) (by rw [hus]; exact hndU)
      (by rw [hns]; exact hndN) (by rw [hkeys]; exact hkA)
      (by rw [hkeys]; exact hkB) hAB
      (fun x hx => hsteps x (List.mem_cons_of_mem s hx))
    simp only [applyTransfers]
    exact Int.ModEq.trans h1 hsum

/-- C2 counterexample: balances are Go `int64` and the recipient credit
wraps — transferring 1 into a recipient holding 2^63 − 1 succeeds (200) and
wraps the recipient to −2^63, so `balance(A)+balance(B)` changes by 2^64
across a successful transfer between two distinct wallets, refuting the
stated invariant on representable program states. -/
theorem c2_counterexample :
    (TransferFunds c2OfDb "ua" { walletNumber := "2222222222222", amount := 1 }
      "s1" "c1" "TR1" "TR2").2.1 = 200 ∧
    balanceOf (TransferFunds c2OfDb "ua"
      { walletNumber := "2222222222222", amount := 1 }
      "s1" "c1" "TR1" "TR2").1 "wb" = -9223372036854775808 ∧
    balanceOf (TransferFunds c2OfDb "ua"
        { walletNumber := "2222222222222", amount := 1 }
        "s1" "c1" "TR1" "TR2").1 "wa" +
      balanceOf (TransferFunds c2OfDb "ua"
        { walletNumber := "2222222222222", amount := 1 }
        "s1" "c1" "TR1" "TR2").1 "wb" ≠
      balanceOf c2OfDb "wa" + balanceOf c2OfDb "wb" := by
  decide

/-- C2 amended: in a well-formed store (unique ids, owners and wallet
numbers), for two distinct wallets A and B, any single transfer request
between them preserves `balance(A)+balance(B)` modulo 2^64, any sequence of
transfer requests between them (with no deposits) preserves the sum modulo
2^64, and the sum is preserved exactly whenever every balance is
non-negative with int64 headroom for the request's amount — the exact
invariant of the claim holds only up to int64 overflow, which the program
does not guard against. -/
theorem c2_amended (db : Store) (A B : Wallet)
    (steps : List TransferStep) (s0 : TransferStep)
    (hndI : (db.wallets.map Wallet.id).Nodup)
    (hndU : (db.wallets.map Wallet.userId).Nodup)
    (hndN : (db.wallets.map Wallet.walletNumber).Nodup)
    (hA : A ∈ db.wallets) (hB : B ∈ db.wallets) (hAB : A.id ≠ B.id)
    (hu0 : s0.userID = A.userId ∨ s0.userID = B.userId)
    (hn0 : s0.req.walletNumber = A.walletNumber ∨
      s0.req.walletNumber = B.walletNumber)
    (hsteps : ∀ s ∈ steps, (s.userID = A.userId ∨ s.userID = B.userId) ∧
      (s.req.walletNumber = A.walletNumber ∨
        s.req.walletNumber = B.walletNumber)) :
    Int.ModEq 18446744073709551616
      (balanceOf (applyTransfer db s0) A.id +
        balanceOf (applyTransfer db s0) B.id)
      (balanceOf db A.id + balanceOf db B.id) ∧
    Int.ModEq 18446744073709551616
      (balanceOf (applyTransfers db steps) A.id +
        balanceOf (applyTransfers db steps) B.id)
      (balanceOf db A.id + balanceOf db B.id) ∧
    ((∀ w ∈ db.wallets, 0 ≤ w.balance ∧
        w.balance + s0.req.amount ≤ int64Max) →
      balanceOf (applyTransfer db s0) A.id +
        balanceOf (applyTransfer db s0) B.id =
        balanceOf db A.id + balanceOf db B.id) := by
  have hkA : (A.id, A.userId, A.walletNumber) ∈ walletKeys db := by
    exact List.mem_map_of_mem _ hA
  have hkB : (B.id, B.userId, B.walletNumber) ∈ walletKeys db := by
    exact List.mem_map_of_mem _ hB
  obtain ⟨h1, _, h3⟩ := applyTransfer_between db s0 A.id A.userId
    A.walletNumber B.id B.userId B.walletNumber hndI hndU hndN hkA hkB hAB
    hu0 hn0
  exact ⟨h1, applyTransfers_between steps db A.id A.userId A.walletNumber
    B.id B.userId B.walletNumber hndI hndU hndN hkA hkB hAB hsteps, h3⟩

theorem c2_amended_witness :
    Int.ModEq 18446744073709551616
      (balanceOf (applyTransfers c2Db c2Steps) "wa" +
        balanceOf (applyTransfers c2Db c2Steps) "wb")
      (balanceOf c2Db "wa" + balanceOf c2Db "wb") ∧
    balanceOf (applyTransfer c2Db c2Step0) "wa" +
      balanceOf (applyTransfer c2Db c2Step0) "wb" =
      balanceOf c2Db "wa" + balanceOf c2Db "wb" := by
  have h := c2_amended c2Db
    { id := "wa", userId := "ua", walletNumber := "1111111111111",
      balance := 5000 }
    { id := "wb", userId := "ub", walletNumber := "2222222222222",
      balance := 0 }
    c2Steps c2Step0
    (by decide) (by decide) (by decide) (by decide) (by decide) (by decide)
    (by decide) (by decide) (by decide)
  exact ⟨h.2.1, h.2.2 (by decide)⟩

end WalletService
